import Mathlib

/-!
Shallow embedding of the Carrom Arena match engine core.

The embedding follows the TypeScript source:
* `GameService` (game creation, joining, starting, move processing, prize
  distribution) and its data model, from the game-service source file;
* `FraudDetectionService.analyzeTimingPatterns` and
  `flagSuspiciousActivity`, and `validateStakeAmount`, from the project
  guide's fraud-detection and validation sections.

JavaScript numbers are modelled as exact rationals, except monetary
amounts, which the spec prescribes to be integer minor units and which are
modelled as integers (with floor-division bridge lemmas tying the integer
forms to the source's rational expressions); wall-clock dates are rational
millisecond timestamps, and the persistence layer an explicit store keyed
by game id.  The wallet ledger, whose operations exist in the
source only as empty stub methods, is modelled from the spec (marked below).
Fallible operations return `Except`; state writes that the source performs
before a failure is thrown are kept in the returned state, so partial
effects are observable exactly where the source would leave them durable.
-/

namespace CarromArena

/-- Game modes from the source union type. -/
inductive GameMode
  | CLASSIC | BLITZ | TOURNAMENT
  deriving Repr, DecidableEq

/-- Match lifecycle status values from the source union type. -/
inductive GameStatus
  | WAITING | STARTING | IN_PROGRESS | FINISHED | CANCELLED
  deriving Repr, DecidableEq

/-- Player skill levels from the source union type. -/
inductive SkillLevel
  | BEGINNER | INTERMEDIATE | ADVANCED | PRO
  deriving Repr, DecidableEq

/-- Phase of the in-match game state. -/
inductive GamePhase
  | PLACEMENT | PLAYING | FINISHED
  deriving Repr, DecidableEq

/-- Coin colours on the board. -/
inductive CoinType
  | WHITE | BLACK | QUEEN
  deriving Repr, DecidableEq

/-- Result of a processed move. -/
inductive MoveResult
  | SUCCESS | MISS | FOUL
  deriving Repr, DecidableEq

/-- A pocket on the board. -/
structure Pocket where
  x : ℚ
  y : ℚ
  radius : ℚ
  deriving Repr, DecidableEq

/-- A coin on the board. -/
structure Coin where
  id : String
  type : CoinType
  x : ℚ
  y : ℚ
  owner : Option String
  isPocketed : Bool
  deriving Repr, DecidableEq

/-- The board state of a match. -/
structure BoardState where
  striker : ℚ × ℚ
  coins : List Coin
  pockets : List Pocket
  deriving Repr, DecidableEq

/-- The in-match game state. -/
structure GameState where
  currentPlayer : String
  turnNumber : ℕ
  board : BoardState
  gamePhase : GamePhase
  timeRemaining : ℚ
  lastMoveAt : ℚ
  deriving Repr, DecidableEq

/-- A participant of a match. -/
structure GamePlayer where
  userId : String
  name : String
  skillLevel : SkillLevel
  coins : List String
  score : ℚ
  isReady : Bool
  isActive : Bool
  joinedAt : ℚ
  deriving Repr, DecidableEq

/-- Payload of a recorded move. -/
structure MoveData where
  strikerPosition : ℚ × ℚ
  targetCoins : List String
  force : ℚ
  angle : ℚ
  result : MoveResult
  deriving Repr, DecidableEq

/-- A recorded move of a match.  The source always records type STRIKE in
`processMove`, so the record keeps only the fields the engine writes. -/
structure GameMove where
  id : String
  gameId : String
  playerId : String
  moveNumber : ℕ
  data : MoveData
  timestamp : ℚ
  deriving Repr, DecidableEq

/-- A match record, field for field from the source `Game` interface.  Note
that the creation input's `maxPlayers` is not a field: the source drops it
after computing the prize pool, and the record carries no settled flag. -/
structure Game where
  id : String
  roomId : String
  gameMode : GameMode
  players : List GamePlayer
  stakeAmount : ℤ
  prizePool : ℤ
  status : GameStatus
  gameState : GameState
  startTime : Option ℚ
  endTime : Option ℚ
  winner : Option String
  moves : List GameMove
  createdAt : ℚ
  deriving Repr, DecidableEq

/-! ### Fraud detection (project guide, `FraudDetectionService`) -/

/-- Consecutive differences of a list of timestamps: the loop
`for i in 1..len-1: intervals.push(t[i] - t[i-1])`. -/
def interMoveIntervals : List ℚ → List ℚ
  | a :: b :: rest => (b - a) :: interMoveIntervals (b :: rest)
  | _ => []

/-- The trailing window `history.slice(-10)` of the move history. -/
def timingWindow (history : List GameMove) : List GameMove :=
  history.drop (history.length - 10)

/-- Inter-move intervals over the trailing window. -/
def timingIntervals (history : List GameMove) : List ℚ :=
  interMoveIntervals ((timingWindow history).map (fun m => m.timestamp))

/-- Mean inter-move interval of the trailing window,
`intervals.reduce((a,b) => a+b, 0) / intervals.length`. -/
def meanInterval (history : List GameMove) : ℚ :=
  (timingIntervals history).sum / ((timingIntervals history).length : ℚ)

/-- Population variance of the inter-move intervals of the trailing window. -/
def intervalVariance (history : List GameMove) : ℚ :=
  (((timingIntervals history).map
      (fun x => (x - meanInterval history) ^ 2)).sum) /
    ((timingIntervals history).length : ℚ)

/-- Timing-regularity component of the fraud score,
`FraudDetectionService.analyzeTimingPatterns`.  The `move` argument is
unused by the source body, which reads only the history. -/
def analyzeTimingPatterns (_move : GameMove) (history : List GameMove) : ℚ :=
  if (timingWindow history).length < 3 then 0
  else if intervalVariance history < 100 ∧ meanInterval history < 2000 then 40
  else if meanInterval history < 500 then 60
  else 0

/-- Severity tiers of emitted fraud alerts. -/
inductive FraudSeverity
  | HIGH | MEDIUM
  deriving Repr, DecidableEq

/-- A fraud alert record as created by `createFraudAlert`. -/
structure FraudAlert where
  userId : String
  gameId : String
  fraudScore : ℚ
  severity : FraudSeverity
  action : String
  description : String
  deriving Repr, DecidableEq

/-- The complete effect of one `flagSuspiciousActivity` call: the alerts it
creates and the temporary account restriction it applies, if any.  These two
effect kinds are the only ones the source body performs; in particular no
branch mutates the match record or forfeits a match. -/
structure FraudResponse where
  alerts : List FraudAlert
  restricted : Option (String × String)
  deriving Repr, DecidableEq

/-- The decision function `FraudDetectionService.flagSuspiciousActivity`. -/
def flagSuspiciousActivity (userId : String) (fraudScore : ℚ)
    (gameId : String) : FraudResponse :=
  if fraudScore > 75 then
    { alerts := [{ userId := userId, gameId := gameId, fraudScore := fraudScore,
                   severity := .HIGH, action := "INVESTIGATE",
                   description := "Suspicious gameplay patterns detected" }],
      restricted := some (userId, "SUSPECTED_FRAUD") }
  else if fraudScore > 50 then
    { alerts := [{ userId := userId, gameId := gameId, fraudScore := fraudScore,
                   severity := .MEDIUM, action := "MONITOR",
                   description := "Unusual gameplay patterns detected" }],
      restricted := none }
  else
    { alerts := [], restricted := none }

/-- Modelled from the spec: the decision policy of the fraud section
demands, per score band, whether the move's author is match-forfeited and
which alert severity is flagged. -/
structure SpecFraudDecision where
  forfeitAuthor : Bool
  alertSeverity : Option FraudSeverity
  deriving Repr, DecidableEq

/-- Modelled from the spec: score above 75 forfeits the author and flags
HIGH; score in (50, 75] accepts with a MEDIUM alert; at most 50 accepts
silently. -/
def specFraudPolicy (score : ℚ) : SpecFraudDecision :=
  if score > 75 then { forfeitAuthor := true, alertSeverity := some .HIGH }
  else if score > 50 then { forfeitAuthor := false, alertSeverity := some .MEDIUM }
  else { forfeitAuthor := false, alertSeverity := none }

/-- Abstraction of a source fraud response into the spec's decision
vocabulary.  The source's only effects are alert creation and a temporary
account restriction; neither touches any match record, so no response ever
forfeits the author's match. -/
def responseDecision (r : FraudResponse) : SpecFraudDecision :=
  { forfeitAuthor := false,
    alertSeverity := (r.alerts.head?).map (fun a => a.severity) }

/-! ### Stake validation (project guide, `validateStakeAmount`) -/

/-- The stake-amount validator `amount >= 10 && amount <= 2000`. -/
def validateStakeAmount (amount : ℚ) : Bool :=
  decide (10 ≤ amount) && decide (amount ≤ 2000)

/-! ### Wallet ledger

The game-service source declares `lockPlayerStake`, `releaseAllStakes` and
`transferPrize` only as empty stub methods ("implement based on your
system"), so the ledger itself is modelled from the spec's Wallet Ledger
contract; the game service below calls it at exactly the source's call
sites. -/

/-- Failure modes of the wallet ledger, from the spec's contract. -/
inductive LedgerError
  | insufficientFunds | duplicateLockConflict | invalidAmount
  deriving Repr, DecidableEq

/-- A stake escrowed for one match, tagged with its match id. -/
structure StakeLock where
  userId : String
  matchId : String
  amount : ℤ
  deriving Repr, DecidableEq

/-- Modelled from the spec: wallet state, available balance per user plus
the outstanding stake locks. -/
structure LedgerState where
  available : List (String × ℤ)
  locks : List StakeLock
  deriving Repr, DecidableEq

/-- Available balance of a user (0 when the user has no entry). -/
def availOf (avail : List (String × ℤ)) (u : String) : ℤ :=
  match avail with
  | [] => 0
  | (v, a) :: rest => if v = u then a else availOf rest u

/-- Add a (possibly negative) delta to a user's available balance. -/
def addAvail (avail : List (String × ℤ)) (u : String) (d : ℤ) :
    List (String × ℤ) :=
  match avail with
  | [] => [(u, d)]
  | (v, a) :: rest =>
    if v = u then (v, a + d) :: rest else (v, a) :: addAvail rest u d

/-- Available balance of a user in a ledger state. -/
def LedgerState.availableOf (l : LedgerState) (u : String) : ℤ :=
  availOf l.available u

/-- The lock amount held for (user, match), if any. -/
def findLock (locks : List StakeLock) (u m : String) : Option ℤ :=
  (locks.find? (fun k => k.userId == u && k.matchId == m)).map (fun k => k.amount)

/-- Modelled from the spec: `lock(userId, matchId, amount)` fails with
InsufficientFunds when available < amount, is an idempotent no-op for a
repeated lock of the same amount, fails with DuplicateLockConflict for a
different amount, and otherwise atomically moves the amount from available
into a lock tagged with the match. -/
def LedgerState.lock (l : LedgerState) (u m : String) (amount : ℤ) :
    Except LedgerError LedgerState :=
  match findLock l.locks u m with
  | some a =>
    if a = amount then .ok l else .error .duplicateLockConflict
  | none =>
    if l.availableOf u < amount then .error .insufficientFunds
    else .ok { available := addAvail l.available u (-amount),
               locks := ⟨u, m, amount⟩ :: l.locks }

/-- Modelled from the spec: `release(userId, matchId)` returns the locked
amount to available; releasing an absent lock is an idempotent no-op. -/
def LedgerState.release (l : LedgerState) (u m : String) : LedgerState :=
  match findLock l.locks u m with
  | none => l
  | some a =>
    { available := addAvail l.available u a,
      locks := l.locks.filter (fun k => !(k.userId == u && k.matchId == m)) }

/-- Modelled from the spec: `credit(userId, amount)` adds to available,
failing with InvalidAmount on a negative amount. -/
def LedgerState.credit (l : LedgerState) (u : String) (amount : ℤ) :
    Except LedgerError LedgerState :=
  if amount < 0 then .error .invalidAmount
  else .ok { l with available := addAvail l.available u amount }

/-- Modelled from the spec: release every lock tagged with the given match,
the ledger side of the source's `releaseAllStakes(gameId)` stub. -/
def LedgerState.releaseAllFor (l : LedgerState) (m : String) : LedgerState :=
  { available := (l.locks.filter (fun k => k.matchId == m)).foldl
      (fun av k => addAvail av k.userId k.amount) l.available,
    locks := l.locks.filter (fun k => !(k.matchId == m)) }

/-- Sum of the stake amounts currently locked for a match. -/
def lockedSumFor (l : LedgerState) (m : String) : ℤ :=
  ((l.locks.filter (fun k => k.matchId == m)).map (fun k => k.amount)).sum

/-! ### Game service state -/

/-- The system state: the stored game records (the database behind
`storeGame` / `updateGame` / `getGameById`, keyed by game id) and the
wallet ledger. -/
structure SystemState where
  games : List (String × Game)
  ledger : LedgerState
  deriving Repr, DecidableEq

/-- Database read `getGameById`. -/
def lookupGame (games : List (String × Game)) (id : String) : Option Game :=
  match games with
  | [] => none
  | (k, g) :: rest => if k = id then some g else lookupGame rest id

/-- Remove every record stored under the given key. -/
def removeKey (games : List (String × Game)) (k : String) :
    List (String × Game) :=
  match games with
  | [] => []
  | p :: rest =>
    if p.1 = k then removeKey rest k else p :: removeKey rest k

/-- Database write `storeGame` / `updateGame`: a keyed upsert — the record
stored under `g.id` becomes `g`, every other key is untouched. -/
def storeGame (games : List (String × Game)) (g : Game) :
    List (String × Game) :=
  (g.id, g) :: removeKey games g.id

/-- Error taxonomy of the game-service operations. -/
inductive GameError
  | validation (field : String)
  | notEligible (reason : String)
  | gameNotFound
  | joinNotAllowed (reason : String)
  | cannotStart
  | invalidMove (reason : String)
  | noWinner
  | ledger (e : LedgerError)
  deriving Repr, DecidableEq

/-! ### Game service helpers, translated from the source -/

/-- Stub `checkPlayerEligibility`: always eligible in the source. -/
def checkPlayerEligibility (_playerId : String) (_amount : ℤ) :
    Bool × String := (true, "")

/-- Stub `canPlayerJoinGame`: always allowed in the source. -/
def canPlayerJoinGame (_game : Game) (_playerId : String) :
    Bool × String := (true, "")

/-- The player record built by `createGamePlayer`. -/
def createGamePlayer (playerId : String) (_role : String) (now : ℚ) :
    GamePlayer :=
  { userId := playerId, name := "Player Name", skillLevel := .INTERMEDIATE,
    coins := [], score := 0, isReady := false, isActive := true,
    joinedAt := now }

/-- The four corner pockets used by both initial-state builders. -/
def defaultPockets : List Pocket :=
  [⟨50, 50, 15⟩, ⟨450, 50, 15⟩, ⟨450, 450, 15⟩, ⟨50, 450, 15⟩]

/-- The initial in-match state from `createInitialGameState`. -/
def createInitialGameState (now : ℚ) : GameState :=
  { currentPlayer := "", turnNumber := 1,
    board := { striker := (0, 0), coins := [], pockets := defaultPockets },
    gamePhase := .PLACEMENT, timeRemaining := 300, lastMoveAt := now }

/-- The prize pool `Math.floor(totalStakes - totalStakes * 0.05)`.  Money
is kept in integer minor units (the spec prescribes integer accounting),
and integer division on ℤ is floor division, so the source's rational
expression is the floor division by 20 of 19 times the total; the theorem
`calculatePrizePool_floor` below proves the two readings equal. -/
def calculatePrizePool (stakeAmount playerCount : ℤ) : ℤ :=
  let totalStakes := stakeAmount * playerCount
  (19 * totalStakes) / 20

/-- Input of `createGame`. -/
structure GameCreationData where
  hostId : String
  gameMode : GameMode
  stakeAmount : ℤ
  isPrivate : Bool
  maxPlayers : ℤ
  timeLimit : ℤ
  deriving Repr, DecidableEq

/-- The zod schema of `validateGameCreation`: hostId non-empty, stake in
[10, 2000], maxPlayers in [2, 4], timeLimit in [5, 30]; gameMode and
isPrivate are enforced by the types. -/
def validateGameCreation (d : GameCreationData) :
    Except GameError GameCreationData :=
  if d.hostId.length < 1 then .error (.validation "hostId")
  else if ¬(10 ≤ d.stakeAmount ∧ d.stakeAmount ≤ 2000) then
    .error (.validation "stakeAmount")
  else if ¬(2 ≤ d.maxPlayers ∧ d.maxPlayers ≤ 4) then
    .error (.validation "maxPlayers")
  else if ¬(5 ≤ d.timeLimit ∧ d.timeLimit ≤ 30) then
    .error (.validation "timeLimit")
  else .ok d

/-- Ready check `game.players.length >= 2`; the configured capacity is not
consulted (and is not even stored on the game record). -/
def isGameReadyToStart (g : Game) : Bool :=
  decide (2 ≤ g.players.length)

/-- Start guard `game.status === WAITING && game.players.length >= 2`. -/
def canStartGame (g : Game) : Bool :=
  (g.status == .WAITING) && decide (2 ≤ g.players.length)

/-- The nine white coins white_1 .. white_9. -/
def whiteCoins : List String :=
  (List.range 9).map (fun i => "white_" ++ toString (i + 1))

/-- The nine black coins black_1 .. black_9. -/
def blackCoins : List String :=
  (List.range 9).map (fun i => "black_" ++ toString (i + 1))

/-- Result wrapper of `assignCoinsToPlayers`. -/
structure CoinAssignment where
  players : List GamePlayer
  deriving Repr, DecidableEq

/-- The indexed map of `assignCoinsToPlayers`: the player at index `idx`
receives the white coins when `idx` is even, the black coins otherwise. -/
def assignCoinsFrom (idx : ℕ) : List GamePlayer → List GamePlayer
  | [] => []
  | p :: rest =>
    { p with coins := if idx % 2 = 0 then whiteCoins else blackCoins } ::
      assignCoinsFrom (idx + 1) rest

/-- Coin assignment over the participant list in join order. -/
def assignCoinsToPlayers (players : List GamePlayer) : CoinAssignment :=
  ⟨assignCoinsFrom 0 players⟩

/-- The initial board from `setupInitialBoard` (the coin formation is an
empty placeholder in the source). -/
def setupInitialBoard (_assignment : CoinAssignment) : BoardState :=
  { striker := (250, 400), coins := [], pockets := defaultPockets }

/-- First turn holder `players[0].userId`; the source would crash on an
empty list, modelled as `none`. -/
def determineFirstPlayer (players : List GamePlayer) : Option String :=
  players.head?.map (fun p => p.userId)

/-- Stub `validateMove`: every move is valid in the source. -/
def validateMove (_game : Game) (_playerId : String) : Bool × String :=
  (true, "")

/-- Stub `checkWinCondition`: never reports a winner in the source. -/
def checkWinCondition (_state : GameState) (_players : List GamePlayer) :
    Bool × String := (false, "")

/-- Turn advancement: `players[(findIndex(currentPlayerId) + 1) % length]`.
A missing current player gives findIndex = -1, hence index 0.  On an empty
list the source would crash (undefined element), modelled as `none`. -/
def getNextPlayer (players : List GamePlayer) (currentPlayerId : String) :
    Option String :=
  let currentIndex : ℤ :=
    match players.findIdx? (fun p => p.userId == currentPlayerId) with
    | some i => (i : ℤ)
    | none => -1
  (players.get? (((currentIndex + 1) % (players.length : ℤ)).toNat)).map
    (fun p => p.userId)

/-- Prize split: the winner receives `Math.floor(prizePool * 0.9)`, the
floor division by 10 of 9 times the pool (see `prize_split_floor`). -/
def calculatePrizeDistribution (game : Game) : List (String × ℤ) :=
  [(game.winner.getD "", (9 * game.prizePool) / 10)]

/-- Outcome of the physics pipeline inside `simulateMove`. -/
structure PhysicsOutcome where
  result : MoveResult
  updatedBoard : BoardState
  coinsPocketed : List String
  scoreChange : ℚ
  deriving Repr, DecidableEq

/-- The physics pipeline: trajectory, collisions and effects are stubs in
the source (`processCollisionEffects` returns the board unchanged with no
pocketed coins, `determineMoveResult` reports success), so the outcome is
always SUCCESS on the unchanged board. -/
def simulateMove (board : BoardState) : PhysicsOutcome :=
  { result := .SUCCESS, updatedBoard := board, coinsPocketed := [],
    scoreChange := 0 }

/-- Stub `updateGameStateFromMove`: returns the current state unchanged. -/
def updateGameStateFromMove (currentState : GameState) (_move : GameMove)
    (_ph : PhysicsOutcome) : GameState := currentState

/-- Client payload of `processMove`. -/
structure MoveInput where
  strikerPosition : ℚ × ℚ
  force : ℚ
  angle : ℚ
  targetCoins : Option (List String)
  deriving Repr, DecidableEq

/-! ### Game service operations

Each operation threads the system state explicitly.  The random ids and
`new Date()` calls of the source are taken as parameters.  State writes the
source performs before throwing are kept in the returned state (they are
durable database writes); state the source only mutates on a fetched copy
without calling `updateGame` is not. -/

/-- Sequential prize transfer loop of `distributePrizes`: credits already
applied before a failure remain applied. -/
def creditAll (l : LedgerState) :
    List (String × ℤ) → Except LedgerError Unit × LedgerState
  | [] => (.ok (), l)
  | (u, a) :: rest =>
    match l.credit u a with
    | .error e => (.error e, l)
    | .ok l' => creditAll l' rest

/-- Match creation `createGame`: validate, check eligibility, compute the
prize pool from the stake and the configured capacity, build the WAITING
game with the host pushed as first player, store it, then lock the host's
stake.  The store write precedes the lock, as in the source. -/
def createGame (st : SystemState) (d : GameCreationData) (now : ℚ)
    (gameId roomId : String) : Except GameError Game × SystemState :=
  match validateGameCreation d with
  | .error e => (.error e, st)
  | .ok vd =>
    let elig := checkPlayerEligibility vd.hostId vd.stakeAmount
    if !elig.1 then (.error (.notEligible elig.2), st)
    else
      let prizePool := calculatePrizePool vd.stakeAmount vd.maxPlayers
      let initialGameState := createInitialGameState now
      let hostPlayer := createGamePlayer vd.hostId "HOST" now
      let game : Game :=
        { id := gameId, roomId := roomId, gameMode := vd.gameMode,
          players := [hostPlayer], stakeAmount := vd.stakeAmount,
          prizePool := prizePool, status := .WAITING,
          gameState := initialGameState, startTime := none, endTime := none,
          winner := none, moves := [], createdAt := now }
      let st1 : SystemState := { st with games := storeGame st.games game }
      match st1.ledger.lock vd.hostId gameId vd.stakeAmount with
      | .error e => (.error (.ledger e), st1)
      | .ok led => (.ok game, { st1 with ledger := led })

/-- Join `joinGame`: fetch the game, run the (stub) join and eligibility
checks, push the new player onto the fetched copy, lock the joiner's stake,
and only then persist the updated game via `updateGame`.  On a lock failure
the update is never persisted, so the stored participant list is unchanged.
A successful join for a now-ready game schedules `startGame` after a 3
second countdown; that deferred invocation is the separate start operation
below. -/
def joinGame (st : SystemState) (gameId playerId : String) (now : ℚ) :
    Except GameError Game × SystemState :=
  match lookupGame st.games gameId with
  | none => (.error .gameNotFound, st)
  | some game =>
    let canJoin := canPlayerJoinGame game playerId
    if !canJoin.1 then (.error (.joinNotAllowed canJoin.2), st)
    else
      let elig := checkPlayerEligibility playerId game.stakeAmount
      if !elig.1 then (.error (.notEligible elig.2), st)
      else
        let player := createGamePlayer playerId "PLAYER" now
        let game' := { game with players := game.players ++ [player] }
        match st.ledger.lock playerId gameId game.stakeAmount with
        | .error e => (.error (.ledger e), st)
        | .ok led =>
          (.ok game', { games := storeGame st.games game', ledger := led })

/-- Start `startGame`: guard with `canStartGame`, assign coins, rebuild the
initial state and board, mark the game IN_PROGRESS, set the first turn
holder, and persist.  `canStartGame` guarantees at least two players, so
the source's `players[0]` access cannot fail and `getD` is never taken. -/
def startGame (st : SystemState) (gameId : String) (now : ℚ) :
    Except GameError Game × SystemState :=
  match lookupGame st.games gameId with
  | none => (.error .gameNotFound, st)
  | some game =>
    if !canStartGame game then (.error .cannotStart, st)
    else
      let coinAssignment := assignCoinsToPlayers game.players
      let gs0 := createInitialGameState now
      let gs1 := { gs0 with board := setupInitialBoard coinAssignment }
      let firstPlayer := (determineFirstPlayer coinAssignment.players).getD ""
      let game' : Game :=
        { game with players := coinAssignment.players,
                    gameState := { gs1 with currentPlayer := firstPlayer },
                    status := .IN_PROGRESS, startTime := some now }
      (.ok game', { st with games := storeGame st.games game' })

/-- Settlement `distributePrizes`: require a winner, credit each entry of
the prize distribution, then release every stake lock of the match.  The
game record itself is not written: no settled flag exists and none is set. -/
def distributePrizes (st : SystemState) (game : Game) :
    Except GameError Unit × SystemState :=
  match game.winner with
  | none => (.error .noWinner, st)
  | some _ =>
    let prizeDistribution := calculatePrizeDistribution game
    match creditAll st.ledger prizeDistribution with
    | (.error e, led) => (.error (.ledger e), { st with ledger := led })
    | (.ok _, led) =>
      (.ok (), { st with ledger := led.releaseAllFor game.id })

/-- Move processing `processMove`: fetch, validate (stub), simulate physics
(stub), build the move record with `moveNumber = moves.length + 1`, update
the state, check the win condition (stub, never a winner — the FINISHED
branch with its settlement call is therefore dead code, kept faithfully),
otherwise advance the turn, append the move and persist. -/
def processMove (st : SystemState) (gameId playerId : String)
    (md : MoveInput) (now : ℚ) (moveId : String) :
    Except GameError (MoveResult × GameState) × SystemState :=
  match lookupGame st.games gameId with
  | none => (.error .gameNotFound, st)
  | some game =>
    let mv := validateMove game playerId
    if !mv.1 then (.error (.invalidMove mv.2), st)
    else
      let physicsResult := simulateMove game.gameState.board
      let move : GameMove :=
        { id := moveId, gameId := gameId, playerId := playerId,
          moveNumber := game.moves.length + 1,
          data := { strikerPosition := md.strikerPosition,
                    targetCoins := md.targetCoins.getD [],
                    force := md.force, angle := md.angle,
                    result := physicsResult.result },
          timestamp := now }
      let newGameState := updateGameStateFromMove game.gameState move physicsResult
      let winCheck := checkWinCondition newGameState game.players
      if winCheck.1 then
        let gs := { newGameState with gamePhase := .FINISHED }
        let game1 := { game with status := .FINISHED,
                                 winner := some winCheck.2,
                                 endTime := some now }
        match distributePrizes st game1 with
        | (.error e, st') => (.error e, st')
        | (.ok _, st') =>
          let game2 := { game1 with moves := game1.moves ++ [move],
                                    gameState := gs }
          (.ok (physicsResult.result, gs),
            { st' with games := storeGame st'.games game2 })
      else
        let gs := { newGameState with
          currentPlayer := (getNextPlayer game.players playerId).getD "" }
        let game2 := { game with moves := game.moves ++ [move],
                                 gameState := gs }
        (.ok (physicsResult.result, gs),
          { st with games := storeGame st.games game2 })

/-- The operations that may be offered to the system: creation, join, the
(timer-deferred) start, move submission, and settlement of a stored game. -/
inductive Op
  | create (d : GameCreationData) (now : ℚ) (gameId roomId : String)
  | join (gameId playerId : String) (now : ℚ)
  | start (gameId : String) (now : ℚ)
  | move (gameId playerId : String) (md : MoveInput) (now : ℚ) (moveId : String)
  | settle (gameId : String)

/-- State reached after one operation, successful or not. -/
def applyOp (st : SystemState) : Op → SystemState
  | .create d now gid rid => (createGame st d now gid rid).2
  | .join gid pid now => (joinGame st gid pid now).2
  | .start gid now => (startGame st gid now).2
  | .move gid pid md now mid => (processMove st gid pid md now mid).2
  | .settle gid =>
    match lookupGame st.games gid with
    | none => st
    | some g => (distributePrizes st g).2

/-! ### Concrete scenarios used by the theorems below -/

/-- A starting ledger funding two users. -/
def initialLedger : LedgerState :=
  { available := [("alice", 1000), ("bob", 1000)], locks := [] }

/-- The empty initial system state over `initialLedger`. -/
def initialState : SystemState :=
  { games := [], ledger := initialLedger }

/-- Creation input for a CLASSIC match with stake 100 and configured
capacity 4. -/
def fourCapCreation : GameCreationData :=
  { hostId := "alice", gameMode := .CLASSIC, stakeAmount := 100,
    isPrivate := false, maxPlayers := 4, timeLimit := 15 }

/-- State after alice creates the capacity-4 match g1. -/
def stAfterCreate : SystemState :=
  applyOp initialState (.create fourCapCreation 0 "g1" "r1")

/-- State after bob joins g1 (two participants of the configured four). -/
def stAfterJoin : SystemState :=
  applyOp stAfterCreate (.join "g1" "bob" 5)

/-- State after the countdown-invoked start of g1. -/
def stAfterStart : SystemState :=
  applyOp stAfterJoin (.start "g1" 10)

/-- State after alice submits the first move of g1. -/
def stAfterMove : SystemState :=
  applyOp stAfterStart
    (.move "g1" "alice"
      { strikerPosition := (250, 400), force := 50, angle := 90,
        targetCoins := none } 20 "m1")

/-- A state holding the freshly created g1 where bob has no funds, so his
stake lock must fail. -/
def stPoor : SystemState :=
  { games := stAfterCreate.games,
    ledger := { available := [("alice", 900)],
                locks := stAfterCreate.ledger.locks } }

/-- A FINISHED match with its winner set, as `processMove` would leave it:
both stakes still locked, prize pool 190 from stake 100 and capacity 2. -/
def settledGame : Game :=
  { id := "g9", roomId := "r9", gameMode := .CLASSIC,
    players := [createGamePlayer "alice" "HOST" 0,
                createGamePlayer "bob" "PLAYER" 0],
    stakeAmount := 100, prizePool := 190, status := .FINISHED,
    gameState := createInitialGameState 0, startTime := some 0,
    endTime := some 50, winner := some "alice", moves := [], createdAt := 0 }

/-- The ledger at the moment g9 finished: both stakes escrowed. -/
def settledLedger : LedgerState :=
  { available := [("alice", 900), ("bob", 900)],
    locks := [⟨"alice", "g9", 100⟩, ⟨"bob", "g9", 100⟩] }

/-- The system state at the moment g9 finished. -/
def settledState : SystemState :=
  { games := [("g9", settledGame)], ledger := settledLedger }

/-- A throwaway participant used in concrete instances. -/
def probePlayer (u : String) : GamePlayer := createGamePlayer u "PLAYER" 0

/-- A throwaway move with the given timestamp, used in fraud scenarios. -/
def probeMove (t : ℚ) : GameMove :=
  { id := "m", gameId := "g", playerId := "p", moveNumber := 1,
    data := { strikerPosition := (0, 0), targetCoins := [], force := 0,
              angle := 0, result := .SUCCESS },
    timestamp := t }

/-- Three moves fired at a perfectly regular 300ms cadence. -/
def regularBurst : List GameMove := [probeMove 0, probeMove 300, probeMove 600]

/-- A default game record used with `Option.getD` in closed statements. -/
def dummyGame : Game :=
  { id := "", roomId := "", gameMode := .CLASSIC, players := [],
    stakeAmount := 0, prizePool := 0, status := .WAITING,
    gameState := createInitialGameState 0, startTime := none,
    endTime := none, winner := none, moves := [], createdAt := 0 }

instance {e a : Type} [DecidableEq e] [DecidableEq a] :
    DecidableEq (Except e a) := fun x y =>
  match x, y with
  | .error u, .error v =>
    if h : u = v then isTrue (by rw [h])
    else isFalse (by intro hc; cases hc; exact h rfl)
  | .ok u, .ok v =>
    if h : u = v then isTrue (by rw [h])
    else isFalse (by intro hc; cases hc; exact h rfl)
  | .error _, .ok _ => isFalse (by intro hc; cases hc)
  | .ok _, .error _ => isFalse (by intro hc; cases hc)

/-! ### Invariant vocabulary and helper lemmas -/

/-- A store whose every record is filed under its own game id.  The empty
store is keyed and `storeGame` only files a record under its id, so every
reachable store is keyed. -/
def keyedStore (games : List (String × Game)) : Prop :=
  ∀ id g, lookupGame games id = some g → g.id = id

/-- A move log whose sequence numbers are exactly 1, 2, ..., length. -/
def contiguousFromOne (ms : List GameMove) : Prop :=
  ∀ i (h : i < ms.length), (ms.get ⟨i, h⟩).moveNumber = i + 1

/-- Every stored game has a contiguous move log. -/
def storeContiguous (st : SystemState) : Prop :=
  ∀ id g, lookupGame st.games id = some g → contiguousFromOne g.moves

theorem lookupGame_removeKey (gid id : String) (h : ¬id = gid) :
    ∀ games : List (String × Game),
      lookupGame (removeKey games gid) id = lookupGame games id := by
  intro games
  have hgid : ¬gid = id := fun he => h he.symm
  induction games with
  | nil => rfl
  | cons p rest ih =>
    by_cases hp : p.1 = gid
    · have hpid : ¬p.1 = id := by
        rw [hp]
        exact hgid
      simp [removeKey, lookupGame, hp, hpid, hgid, ih]
    · by_cases hpi : p.1 = id
      · simp [removeKey, lookupGame, hp, hpi, h, hgid]
      · simp [removeKey, lookupGame, hp, hpi, hgid, ih]

theorem lookupGame_store (games : List (String × Game)) (g : Game)
    (id : String) :
    lookupGame (storeGame games g) id =
      if id = g.id then some g else lookupGame games id := by
  by_cases h : id = g.id
  · subst h
    simp [storeGame, lookupGame]
  · have hgid : ¬g.id = id := fun he => h he.symm
    simp [storeGame, lookupGame, hgid, if_neg h,
      lookupGame_removeKey g.id id h games]

theorem distributePrizes_games (st : SystemState) (game : Game) :
    (distributePrizes st game).2.games = st.games := by
  unfold distributePrizes
  cases game.winner with
  | none => rfl
  | some w =>
    cases hc : creditAll st.ledger (calculatePrizeDistribution game) with
    | mk r led => cases r <;> simp [hc]

theorem contiguousFromOne_append (ms : List GameMove) (m : GameMove)
    (h : contiguousFromOne ms) (hm : m.moveNumber = ms.length + 1) :
    contiguousFromOne (ms ++ [m]) := by
  intro i hi
  simp only [List.length_append, List.length_cons, List.length_nil] at hi
  by_cases hlt : i < ms.length
  · rw [List.get_append i hlt]
    exact h i hlt
  · have hieq : i = ms.length := by omega
    subst hieq
    have := List.getElem_concat_length ms m ms.length rfl
      (by simp)
    rw [List.get_eq_getElem]
    rw [this]
    exact hm

theorem assignCoinsFrom_length (start : ℕ) (players : List GamePlayer) :
    (assignCoinsFrom start players).length = players.length := by
  induction players generalizing start with
  | nil => rfl
  | cons p rest ih => simp [assignCoinsFrom, ih]

theorem assignCoinsFrom_get (start : ℕ) (players : List GamePlayer) :
    ∀ i (h : i < (assignCoinsFrom start players).length),
      ((assignCoinsFrom start players).get ⟨i, h⟩).coins =
        if (start + i) % 2 = 0 then whiteCoins else blackCoins := by
  induction players generalizing start with
  | nil => intro i h; simp [assignCoinsFrom] at h
  | cons p rest ih =>
    intro i h
    cases i with
    | zero => simp [assignCoinsFrom]
    | succ j =>
      simp only [assignCoinsFrom, List.get_cons_succ]
      rw [ih (start + 1) j (by simpa [assignCoinsFrom] using h)]
      have : start + 1 + j = start + (j + 1) := by omega
      rw [this]

theorem findIdx?_some_lt {α} (p : α → Bool) :
    ∀ (l : List α) (i : ℕ), List.findIdx? p l = some i → i < l.length := by
  intro l
  induction l with
  | nil => intro i h; simp [List.findIdx?] at h
  | cons a rest ih =>
    intro i h
    rw [List.findIdx?_cons] at h
    by_cases hp : p a
    · simp [hp] at h
      simp [← h]
    · simp [hp] at h
      obtain ⟨j, hj, rfl⟩ := h
      have := ih j hj
      simp only [List.length_cons]
      omega

/-- The integer floor-division form of the prize pool equals the source's
rational expression `Math.floor(totalStakes - totalStakes * 0.05)`. -/
theorem calculatePrizePool_floor (s c : ℤ) :
    calculatePrizePool s c =
      ⌊((s * c : ℤ) : ℚ) - ((s * c : ℤ) : ℚ) * (5 / 100)⌋ := by
  have h : ((s * c : ℤ) : ℚ) - ((s * c : ℤ) : ℚ) * (5 / 100) =
      ((19 * (s * c) : ℤ) : ℚ) / ((20 : ℕ) : ℚ) := by
    push_cast
    ring
  rw [h, Rat.floor_intCast_div_natCast]
  norm_num [calculatePrizePool]

/-- The integer floor-division form of the winner's share equals the
source's rational expression `Math.floor(prizePool * 0.9)`. -/
theorem prize_split_floor (p : ℤ) :
    (9 * p) / 10 = ⌊(p : ℚ) * (9 / 10)⌋ := by
  have h : (p : ℚ) * (9 / 10) = ((9 * p : ℤ) : ℚ) / ((10 : ℕ) : ℚ) := by
    push_cast
    ring
  rw [h, Rat.floor_intCast_div_natCast]
  norm_num

theorem validateGameCreation_ok (d vd : GameCreationData)
    (h : validateGameCreation d = .ok vd) : vd = d := by
  unfold validateGameCreation at h
  split_ifs at h
  all_goals
    first
      | exact Except.noConfusion h
      | (injection h with h2; exact h2.symm)

theorem createGame_games_cases (st : SystemState) (d : GameCreationData)
    (now : ℚ) (gid rid : String) :
    (createGame st d now gid rid).2.games = st.games ∨
    (∃ g', g'.id = gid ∧ g'.status = .WAITING ∧ g'.moves = [] ∧
      g'.prizePool = calculatePrizePool d.stakeAmount d.maxPlayers ∧
      g'.players.length = 1 ∧
      (createGame st d now gid rid).2.games = storeGame st.games g') := by
  cases hv : validateGameCreation d with
  | error e =>
    left
    simp [createGame, hv]
  | ok vd =>
    have hvd : vd = d := validateGameCreation_ok d vd hv
    subst hvd
    right
    refine ⟨{ id := gid, roomId := rid, gameMode := vd.gameMode,
              players := [createGamePlayer vd.hostId "HOST" now],
              stakeAmount := vd.stakeAmount,
              prizePool := calculatePrizePool vd.stakeAmount vd.maxPlayers,
              status := .WAITING, gameState := createInitialGameState now,
              startTime := none, endTime := none, winner := none,
              moves := [], createdAt := now }, rfl, rfl, rfl, rfl, rfl, ?_⟩
    cases hlock : st.ledger.lock vd.hostId gid vd.stakeAmount with
    | error e => simp [createGame, hv, checkPlayerEligibility, hlock]
    | ok led => simp [createGame, hv, checkPlayerEligibility, hlock]

theorem joinGame_games_cases (st : SystemState) (gid pid : String)
    (now : ℚ) :
    (joinGame st gid pid now).2.games = st.games ∨
    (∃ game g', lookupGame st.games gid = some game ∧
      g'.id = game.id ∧ g'.status = game.status ∧ g'.moves = game.moves ∧
      g'.prizePool = game.prizePool ∧
      g'.players = game.players ++ [createGamePlayer pid "PLAYER" now] ∧
      (joinGame st gid pid now).2.games = storeGame st.games g') := by
  cases hl : lookupGame st.games gid with
  | none =>
    left
    simp [joinGame, hl]
  | some game =>
    cases hlock : st.ledger.lock pid gid game.stakeAmount with
    | error e =>
      left
      simp [joinGame, hl, canPlayerJoinGame, checkPlayerEligibility, hlock]
    | ok led =>
      right
      refine ⟨game, { game with
          players := game.players ++ [createGamePlayer pid "PLAYER" now] },
        rfl, rfl, rfl, rfl, rfl, rfl, ?_⟩
      simp [joinGame, hl, canPlayerJoinGame, checkPlayerEligibility, hlock]

theorem startGame_games_cases (st : SystemState) (gid : String) (now : ℚ) :
    (startGame st gid now).2.games = st.games ∨
    (∃ game g', lookupGame st.games gid = some game ∧
      canStartGame game = true ∧
      g'.id = game.id ∧ g'.status = .IN_PROGRESS ∧
      g'.players.length = game.players.length ∧
      g'.moves = game.moves ∧ g'.prizePool = game.prizePool ∧
      (startGame st gid now).2.games = storeGame st.games g') := by
  cases hl : lookupGame st.games gid with
  | none =>
    left
    simp [startGame, hl]
  | some game =>
    cases hc : canStartGame game with
    | false => left; simp [startGame, hl, hc]
    | true =>
      right
      refine ⟨game,
        { game with
            players := (assignCoinsToPlayers game.players).players,
            gameState := { createInitialGameState now with
              board := setupInitialBoard (assignCoinsToPlayers game.players),
              currentPlayer := (determineFirstPlayer
                (assignCoinsToPlayers game.players).players).getD "" },
            status := .IN_PROGRESS, startTime := some now },
        rfl, hc, rfl, rfl, ?_, rfl, rfl, ?_⟩
      · simpa [assignCoinsToPlayers] using
          assignCoinsFrom_length 0 game.players
      · simp [startGame, hl, hc]

theorem processMove_games_cases (st : SystemState) (gid pid : String)
    (md : MoveInput) (now : ℚ) (mid : String) :
    (processMove st gid pid md now mid).2.games = st.games ∨
    (∃ game g' mv, lookupGame st.games gid = some game ∧
      g'.id = game.id ∧ g'.status = game.status ∧
      g'.prizePool = game.prizePool ∧
      g'.players = game.players ∧
      g'.moves = game.moves ++ [mv] ∧
      mv.moveNumber = game.moves.length + 1 ∧
      (processMove st gid pid md now mid).2.games = storeGame st.games g') := by
  cases hl : lookupGame st.games gid with
  | none =>
    left
    simp [processMove, hl]
  | some game =>
    right
    refine ⟨game,
      { game with
          moves := game.moves ++
            [{ id := mid, gameId := gid, playerId := pid,
               moveNumber := game.moves.length + 1,
               data := { strikerPosition := md.strikerPosition,
                         targetCoins := md.targetCoins.getD [],
                         force := md.force, angle := md.angle,
                         result := (simulateMove game.gameState.board).result },
               timestamp := now }],
          gameState := { game.gameState with
            currentPlayer := (getNextPlayer game.players pid).getD "" } },
      { id := mid, gameId := gid, playerId := pid,
        moveNumber := game.moves.length + 1,
        data := { strikerPosition := md.strikerPosition,
                  targetCoins := md.targetCoins.getD [],
                  force := md.force, angle := md.angle,
                  result := (simulateMove game.gameState.board).result },
        timestamp := now },
      rfl, rfl, rfl, rfl, rfl, rfl, rfl, ?_⟩
    simp [processMove, hl, validateMove, checkWinCondition,
      updateGameStateFromMove]

theorem keyedStore_singleton (k : String) (g : Game) (hk : g.id = k) :
    keyedStore [(k, g)] := by
  intro id g' h
  by_cases hid : k = id
  · simp only [lookupGame, if_pos hid] at h
    injection h with h2
    rw [← h2, hk]
    exact hid
  · simp [lookupGame, hid] at h

/-! ### Claim theorems -/

/-- C8: stake-amount validation accepts every amount in the closed interval
[10, 2000], including exactly 10 and exactly 2000, and rejects 9 and 2001
(and every amount outside the interval) with a validation error. -/
theorem stake_validation_boundary :
    validateStakeAmount 10 = true ∧ validateStakeAmount 2000 = true ∧
    validateStakeAmount 9 = false ∧ validateStakeAmount 2001 = false ∧
    (∀ a : ℚ, validateStakeAmount a = true ↔ 10 ≤ a ∧ a ≤ 2000) ∧
    (∀ d : GameCreationData, 1 ≤ d.hostId.length →
      (d.stakeAmount < 10 ∨ 2000 < d.stakeAmount) →
      validateGameCreation d = .error (.validation "stakeAmount")) ∧
    (∀ d : GameCreationData,
      10 ≤ d.stakeAmount → d.stakeAmount ≤ 2000 →
      1 ≤ d.hostId.length → 2 ≤ d.maxPlayers → d.maxPlayers ≤ 4 →
      5 ≤ d.timeLimit → d.timeLimit ≤ 30 →
      validateGameCreation d = .ok d) := by
  refine ⟨by decide, by decide, by decide, by decide, ?_, ?_, ?_⟩
  · intro a
    simp [validateStakeAmount]
  · intro d h1 h2
    unfold validateGameCreation
    rw [if_neg (by omega),
      if_pos (show ¬(10 ≤ d.stakeAmount ∧ d.stakeAmount ≤ 2000) by
        rcases h2 with h | h
        · exact fun hc => absurd hc.1 (by linarith)
        · exact fun hc => absurd hc.2 (by linarith))]
  · intro d hs1 hs2 hh hm1 hm2 ht1 ht2
    unfold validateGameCreation
    rw [if_neg (by omega), if_neg (not_not_intro ⟨hs1, hs2⟩),
      if_neg (not_not_intro ⟨hm1, hm2⟩), if_neg (not_not_intro ⟨ht1, ht2⟩)]

/-- C8 witness: the out-of-range stake 2001 is rejected on an otherwise
valid creation input. -/
theorem stake_validation_boundary_witness :
    validateGameCreation
      { hostId := "host", gameMode := .CLASSIC, stakeAmount := 2001,
        isPrivate := false, maxPlayers := 2, timeLimit := 15 } =
      .error (.validation "stakeAmount") :=
  stake_validation_boundary.2.2.2.2.2.1 _ (by decide) (Or.inr (by norm_num))

/-- C6 counterexample: at score 80 the spec's decision policy demands the
move's author be match-forfeited, but the code's complete effect is the
HIGH alert plus a temporary account restriction, and no branch of the
source touches any match record, so the response realizes no forfeit. -/
theorem fraud_high_score_no_forfeit :
    (specFraudPolicy 80).forfeitAuthor = true ∧
    responseDecision (flagSuspiciousActivity "u" 80 "g") ≠ specFraudPolicy 80 ∧
    flagSuspiciousActivity "u" 80 "g" =
      { alerts := [{ userId := "u", gameId := "g", fraudScore := 80,
                     severity := .HIGH, action := "INVESTIGATE",
                     description := "Suspicious gameplay patterns detected" }],
        restricted := some ("u", "SUSPECTED_FRAUD") } := by decide

/-- C6 (amended): score above 75 emits one HIGH alert with action
INVESTIGATE and temporarily restricts the author's account (the match is
not forfeited); score in (50, 75] emits one MEDIUM alert with action
MONITOR and restricts nothing; score at most 50 emits nothing; in
particular score exactly 75 yields the MEDIUM alert without restriction and
score exactly 50 yields no alert. -/
theorem fraud_flag_bands (userId gameId : String) (s : ℚ) :
    (75 < s → flagSuspiciousActivity userId s gameId =
      { alerts := [{ userId := userId, gameId := gameId, fraudScore := s,
                     severity := .HIGH, action := "INVESTIGATE",
                     description := "Suspicious gameplay patterns detected" }],
        restricted := some (userId, "SUSPECTED_FRAUD") }) ∧
    (50 < s → s ≤ 75 → flagSuspiciousActivity userId s gameId =
      { alerts := [{ userId := userId, gameId := gameId, fraudScore := s,
                     severity := .MEDIUM, action := "MONITOR",
                     description := "Unusual gameplay patterns detected" }],
        restricted := none }) ∧
    (s ≤ 50 → flagSuspiciousActivity userId s gameId =
      { alerts := [], restricted := none }) ∧
    (flagSuspiciousActivity userId 75 gameId).alerts.map
      (fun a => a.severity) = [FraudSeverity.MEDIUM] ∧
    (flagSuspiciousActivity userId 75 gameId).restricted = none ∧
    flagSuspiciousActivity userId 50 gameId =
      { alerts := [], restricted := none } := by
  refine ⟨?_, ?_, ?_, ?_, ?_, ?_⟩
  · intro h
    rw [flagSuspiciousActivity, if_pos h]
  · intro h1 h2
    rw [flagSuspiciousActivity, if_neg (by linarith), if_pos h1]
  · intro h
    rw [flagSuspiciousActivity, if_neg (by linarith), if_neg (by linarith)]
  · rw [flagSuspiciousActivity, if_neg (by norm_num), if_pos (by norm_num)]
    rfl
  · rw [flagSuspiciousActivity, if_neg (by norm_num), if_pos (by norm_num)]
  · rw [flagSuspiciousActivity, if_neg (by norm_num), if_neg (by norm_num)]

/-- C6 witness: the bands evaluated at score 80. -/
theorem fraud_flag_bands_witness :
    flagSuspiciousActivity "u" 80 "g" =
      { alerts := [{ userId := "u", gameId := "g", fraudScore := 80,
                     severity := .HIGH, action := "INVESTIGATE",
                     description := "Suspicious gameplay patterns detected" }],
        restricted := some ("u", "SUSPECTED_FRAUD") } :=
  (fraud_flag_bands "u" "g" 80).1 (by norm_num)

/-- C7 counterexample: the three-move burst at 0, 300, 600 ms has only two
interval samples (the claim demands contribution 0 below three samples) and
mean interval 300 ms below 500 (the claim demands 60), yet the computed
contribution is 40: the 40-point branch supersedes the 60-point branch and
the minimum is three moves, i.e. two interval samples. -/
theorem timing_burst_scores_40 :
    timingIntervals regularBurst = [300, 300] ∧
    meanInterval regularBurst = 300 ∧
    intervalVariance regularBurst = 0 ∧
    analyzeTimingPatterns (probeMove 900) regularBurst = 40 := by
  refine ⟨?_, ?_, ?_, ?_⟩ <;>
    norm_num [analyzeTimingPatterns, intervalVariance, meanInterval,
      timingIntervals, timingWindow, interMoveIntervals, regularBurst,
      probeMove]

/-- C7 (amended): the timing component is 0 when the trailing 10-move
window holds fewer than 3 moves (hence fewer than 2 interval samples); it
is 40 when interval variance is below 100 and mean interval below 2000 ms,
and this branch takes precedence; it is 60 only when that branch fails and
the mean interval is below 500 ms; otherwise it is 0. -/
theorem timing_score_characterization (mv : GameMove)
    (history : List GameMove) :
    ((timingWindow history).length < 3 →
      analyzeTimingPatterns mv history = 0) ∧
    (3 ≤ (timingWindow history).length →
      intervalVariance history < 100 → meanInterval history < 2000 →
      analyzeTimingPatterns mv history = 40) ∧
    (3 ≤ (timingWindow history).length →
      ¬(intervalVariance history < 100 ∧ meanInterval history < 2000) →
      meanInterval history < 500 →
      analyzeTimingPatterns mv history = 60) ∧
    (3 ≤ (timingWindow history).length →
      ¬(intervalVariance history < 100 ∧ meanInterval history < 2000) →
      ¬meanInterval history < 500 →
      analyzeTimingPatterns mv history = 0) := by
  unfold analyzeTimingPatterns
  refine ⟨?_, ?_, ?_, ?_⟩
  · intro h
    rw [if_pos h]
  · intro h3 hv hm
    rw [if_neg (by omega), if_pos ⟨hv, hm⟩]
  · intro h3 hn hm
    rw [if_neg (by omega), if_neg hn, if_pos hm]
  · intro h3 hn hm
    rw [if_neg (by omega), if_neg hn, if_neg hm]

/-- C7 witness: the 40-point branch taken on the regular burst. -/
theorem timing_score_characterization_witness :
    analyzeTimingPatterns (probeMove 900) regularBurst = 40 :=
  (timing_score_characterization (probeMove 900) regularBurst).2.1
    (by decide)
    (by norm_num [intervalVariance, meanInterval, timingIntervals,
      timingWindow, interMoveIntervals, regularBurst, probeMove])
    (by norm_num [meanInterval, timingIntervals, timingWindow,
      interMoveIntervals, regularBurst, probeMove])

/-- C9: coin assignment is deterministic and symmetric — the player at each
even join-order index receives exactly the nine white coins white_1 ..
white_9 and each odd index the nine black coins black_1 .. black_9; in a
2-player match the host (index 0) gets white and the joiner black, and
every player holds exactly 9 coins. -/
theorem coin_assignment_alternating (players : List GamePlayer) :
    (assignCoinsToPlayers players).players.length = players.length ∧
    (∀ i (h : i < (assignCoinsToPlayers players).players.length),
      ((assignCoinsToPlayers players).players.get ⟨i, h⟩).coins =
        if i % 2 = 0 then whiteCoins else blackCoins) ∧
    whiteCoins = ["white_1", "white_2", "white_3", "white_4", "white_5",
                  "white_6", "white_7", "white_8", "white_9"] ∧
    blackCoins = ["black_1", "black_2", "black_3", "black_4", "black_5",
                  "black_6", "black_7", "black_8", "black_9"] ∧
    whiteCoins.length = 9 ∧ blackCoins.length = 9 ∧
    (∀ host joiner : GamePlayer,
      (assignCoinsToPlayers [host, joiner]).players.map (fun p => p.coins) =
        [whiteCoins, blackCoins]) := by
  refine ⟨assignCoinsFrom_length 0 players, ?_, by decide, by decide,
    by decide, by decide, ?_⟩
  · intro i h
    have := assignCoinsFrom_get 0 players i h
    simpa using this
  · intro host joiner
    simp [assignCoinsToPlayers, assignCoinsFrom]

/-- C9 witness: in a concrete 2-player match the joiner at index 1 holds
the black coins. -/
theorem coin_assignment_alternating_witness :
    ((assignCoinsToPlayers [probePlayer "a", probePlayer "b"]).players.get
      ⟨1, by decide⟩).coins = if 1 % 2 = 0 then whiteCoins else blackCoins :=
  (coin_assignment_alternating [probePlayer "a", probePlayer "b"]).2.1 1
    (by decide)

/-- C10: turn advancement is total on non-empty participant lists — it
returns the participant at the next index modulo the list length, and a
current-player id absent from the list yields the first participant rather
than a failure. -/
theorem getNextPlayer_total_and_modular (players : List GamePlayer)
    (pid : String) (hne : 0 < players.length) :
    (getNextPlayer players pid).isSome = true ∧
    (∀ i, players.findIdx? (fun p => p.userId == pid) = some i →
      getNextPlayer players pid =
        (players.get? ((i + 1) % players.length)).map (fun p => p.userId)) ∧
    ((∀ p ∈ players, ¬p.userId = pid) →
      getNextPlayer players pid = players.head?.map (fun p => p.userId)) := by
  have hcast : ∀ i : ℕ,
      (((i : ℤ) + 1) % ((players.length : ℕ) : ℤ)).toNat =
        (i + 1) % players.length := by
    intro i
    have h1 : ((i : ℤ) + 1) % (players.length : ℤ) =
        (((i + 1) % players.length : ℕ) : ℤ) := by
      push_cast
      ring
    rw [h1, Int.toNat_ofNat]
  have hzero : (((-1 : ℤ) + 1) % ((players.length : ℕ) : ℤ)).toNat = 0 := by
    norm_num
  refine ⟨?_, ?_, ?_⟩
  · cases hfi : players.findIdx? (fun p => p.userId == pid) with
    | none =>
      have h0 : players[0]? = some (players.get ⟨0, hne⟩) := by
        rw [← List.get?_eq_getElem?]
        exact List.get?_eq_get hne
      simp [getNextPlayer, hfi, hzero, h0]
    | some i =>
      have hmod : (i + 1) % players.length < players.length :=
        Nat.mod_lt _ hne
      have hsome : players[(i + 1) % players.length]? =
          some (players.get ⟨_, hmod⟩) := by
        rw [← List.get?_eq_getElem?]
        exact List.get?_eq_get hmod
      simp [getNextPlayer, hfi, hcast i, hsome]
  · intro i hfi
    simp [getNextPlayer, hfi, hcast i]
  · intro hall
    have hnone : players.findIdx? (fun p => p.userId == pid) = none := by
      rw [List.findIdx?_eq_none_iff]
      intro x hx
      simpa using hall x hx
    cases players with
    | nil => exact absurd hne (by simp)
    | cons a rest =>
      simp [getNextPlayer, hnone, hzero]

/-- C10 witness: with an id absent from a concrete 3-player list the next
player is defined (it is the first participant). -/
theorem getNextPlayer_total_witness :
    (getNextPlayer [probePlayer "a", probePlayer "b", probePlayer "c"]
      "zz").isSome = true :=
  (getNextPlayer_total_and_modular
    [probePlayer "a", probePlayer "b", probePlayer "c"] "zz" (by decide)).1

/-- C1: settlement is not guarded — the match record has no settled flag
and `distributePrizes` checks none, so invoking it a second time on the
FINISHED match g9 (winner alice, prize pool 190, both 100-stakes locked)
credits alice floor(190 * 0.9) = 171 a second time: her available balance
goes 900 to 1171 after the first invocation (171 payout plus her released
100 stake) and to 1342 after the second, while the claim demands the second
invocation record no second payout credit. -/
theorem settlement_double_credit :
    lookupGame settledState.games "g9" = some settledGame ∧
    settledGame.status = .FINISHED ∧
    settledGame.winner = some "alice" ∧
    (distributePrizes settledState settledGame).1 = .ok () ∧
    (distributePrizes settledState settledGame).2.ledger.availableOf
      "alice" = 1171 ∧
    (distributePrizes settledState settledGame).2.ledger.availableOf
      "bob" = 1000 ∧
    (distributePrizes settledState settledGame).2.ledger.locks = [] ∧
    (distributePrizes (distributePrizes settledState settledGame).2
      settledGame).1 = .ok () ∧
    (distributePrizes (distributePrizes settledState settledGame).2
      settledGame).2.ledger.availableOf "alice" = 1342 := by decide

/-- C2 counterexample: the capacity-4 match g1 runs with only two admitted
participants; its prize pool, computed at creation from the configured
capacity, is 380, while the stakes actually locked for it total 200 — the
pool even exceeds the total locked stakes, so it cannot equal the locked
sum minus any non-negative platform fee (locked sum minus the code's 5
percent fee would be 190). -/
theorem prize_pool_exceeds_locked_stakes :
    (lookupGame stAfterStart.games "g1").map (fun g => g.prizePool) =
      some 380 ∧
    (lookupGame stAfterStart.games "g1").map (fun g => g.status) =
      some .IN_PROGRESS ∧
    (lookupGame stAfterStart.games "g1").map (fun g => g.players.length) =
      some 2 ∧
    lockedSumFor stAfterStart.ledger "g1" = 200 ∧
    (200 : ℤ) - 200 * 5 / 100 = 190 ∧ ¬(380 : ℤ) = 190 ∧
    (200 : ℤ) < 380 := by decide

/-- C2 (amended): the prize pool is floor of 0.95 times stake times the
configured capacity of the creation input, computed once at creation (not
at fill time, and not from the stakes actually locked), and no later
operation on a keyed store recomputes it; it equals the locked-stake sum
minus the 5 percent fee exactly when the admitted participant count equals
the configured capacity, as in a 2-capacity stake-100 match where the pool
is 190 = 200 - 10. -/
theorem prize_pool_fixed_at_creation :
    (∀ st d now gid rid g st',
      createGame st d now gid rid = (.ok g, st') →
      g.prizePool = calculatePrizePool d.stakeAmount d.maxPlayers) ∧
    (∀ st gid pid now id g g', keyedStore st.games →
      lookupGame st.games id = some g →
      lookupGame ((joinGame st gid pid now).2.games) id = some g' →
      g'.prizePool = g.prizePool) ∧
    (∀ st gid now id g g', keyedStore st.games →
      lookupGame st.games id = some g →
      lookupGame ((startGame st gid now).2.games) id = some g' →
      g'.prizePool = g.prizePool) ∧
    (∀ st gid pid md now mid id g g', keyedStore st.games →
      lookupGame st.games id = some g →
      lookupGame ((processMove st gid pid md now mid).2.games) id =
        some g' →
      g'.prizePool = g.prizePool) ∧
    (∀ st game, (distributePrizes st game).2.games = st.games) ∧
    calculatePrizePool 100 2 = 190 ∧
    (∀ s c : ℤ, calculatePrizePool s c =
      ⌊((s * c : ℤ) : ℚ) - ((s * c : ℤ) : ℚ) * (5 / 100)⌋) := by
  refine ⟨?_, ?_, ?_, ?_, distributePrizes_games, by decide,
    calculatePrizePool_floor⟩
  · intro st d now gid rid g st' h
    cases hv : validateGameCreation d with
    | error e => simp [createGame, hv] at h
    | ok vd =>
      have hvd : vd = d := validateGameCreation_ok d vd hv
      subst hvd
      cases hlock : st.ledger.lock vd.hostId gid vd.stakeAmount with
      | error e =>
        simp [createGame, hv, checkPlayerEligibility, hlock] at h
      | ok led =>
        simp [createGame, hv, checkPlayerEligibility, hlock,
          Prod.ext_iff] at h
        rw [← h.1]
  · intro st gid pid now id g g' hk hg hg'
    rcases joinGame_games_cases st gid pid now with hsame |
      ⟨game, u, hgame, hid, hstat, hmv, hpool, hpl, hgames⟩
    · rw [hsame, hg] at hg'
      injection hg' with h2
      rw [← h2]
    · rw [hgames, lookupGame_store] at hg'
      by_cases hgid : id = u.id
      · rw [if_pos hgid] at hg'
        injection hg' with h2
        have hgameid : game.id = gid := hk gid game hgame
        have : id = gid := by rw [hgid, hid, hgameid]
        rw [this, hgame] at hg
        injection hg with h3
        rw [← h2, hpool, h3]
      · rw [if_neg hgid, hg] at hg'
        injection hg' with h2
        rw [← h2]
  · intro st gid now id g g' hk hg hg'
    rcases startGame_games_cases st gid now with hsame |
      ⟨game, u, hgame, hc, hid, hstat, hlen, hmv, hpool, hgames⟩
    · rw [hsame, hg] at hg'
      injection hg' with h2
      rw [← h2]
    · rw [hgames, lookupGame_store] at hg'
      by_cases hgid : id = u.id
      · rw [if_pos hgid] at hg'
        injection hg' with h2
        have hgameid : game.id = gid := hk gid game hgame
        have : id = gid := by rw [hgid, hid, hgameid]
        rw [this, hgame] at hg
        injection hg with h3
        rw [← h2, hpool, h3]
      · rw [if_neg hgid, hg] at hg'
        injection hg' with h2
        rw [← h2]
  · intro st gid pid md now mid id g g' hk hg hg'
    rcases processMove_games_cases st gid pid md now mid with hsame |
      ⟨game, u, mv, hgame, hid, hstat, hpool, hpl, hmv, hnum, hgames⟩
    · rw [hsame, hg] at hg'
      injection hg' with h2
      rw [← h2]
    · rw [hgames, lookupGame_store] at hg'
      by_cases hgid : id = u.id
      · rw [if_pos hgid] at hg'
        injection hg' with h2
        have hgameid : game.id = gid := hk gid game hgame
        have : id = gid := by rw [hgid, hid, hgameid]
        rw [this, hgame] at hg
        injection hg with h3
        rw [← h2, hpool, h3]
      · rw [if_neg hgid, hg] at hg'
        injection hg' with h2
        rw [← h2]

theorem keyed_stAfterCreate : keyedStore stAfterCreate.games := by
  rw [show stAfterCreate.games =
      [("g1", (lookupGame stAfterCreate.games "g1").getD dummyGame)] from
    by decide]
  exact keyedStore_singleton _ _ (by decide)

theorem keyed_stAfterJoin : keyedStore stAfterJoin.games := by
  rw [show stAfterJoin.games =
      [("g1", (lookupGame stAfterJoin.games "g1").getD dummyGame)] from
    by decide]
  exact keyedStore_singleton _ _ (by decide)

/-- C2 witness: joining g1 leaves its creation-time prize pool unchanged. -/
theorem prize_pool_fixed_witness :
    ((lookupGame stAfterJoin.games "g1").getD dummyGame).prizePool =
      ((lookupGame stAfterCreate.games "g1").getD dummyGame).prizePool :=
  prize_pool_fixed_at_creation.2.1 stAfterCreate "g1" "bob" 5 "g1"
    ((lookupGame stAfterCreate.games "g1").getD dummyGame)
    ((lookupGame stAfterJoin.games "g1").getD dummyGame)
    keyed_stAfterCreate (by decide) (by decide)

/-- C3: on every join request the participant becomes visible in the stored
match only together with a successful stake lock, and any failure — the
lock's included — rejects the join with the entire state, the stored
participant list in particular, exactly as before the request.  (The source
pushes the player onto the fetched copy before locking, but persists the
copy via updateGame only after the lock succeeds.) -/
theorem join_lock_before_admission :
    (∀ st gid pid now e st',
      joinGame st gid pid now = (.error e, st') → st' = st) ∧
    (∀ st gid pid now g' st',
      joinGame st gid pid now = (.ok g', st') →
      ∃ game led, lookupGame st.games gid = some game ∧
        g'.players = game.players ++ [createGamePlayer pid "PLAYER" now] ∧
        st.ledger.lock pid gid game.stakeAmount = .ok led ∧
        st' = { games := storeGame st.games g', ledger := led }) := by
  constructor
  · intro st gid pid now e st' h
    cases hl : lookupGame st.games gid with
    | none =>
      simp [joinGame, hl, Prod.ext_iff] at h
      exact h.2.symm
    | some game =>
      cases hlock : st.ledger.lock pid gid game.stakeAmount with
      | error e2 =>
        simp [joinGame, hl, canPlayerJoinGame, checkPlayerEligibility,
          hlock, Prod.ext_iff] at h
        exact h.2.symm
      | ok led =>
        simp [joinGame, hl, canPlayerJoinGame, checkPlayerEligibility,
          hlock, Prod.ext_iff] at h
  · intro st gid pid now g' st' h
    cases hl : lookupGame st.games gid with
    | none => simp [joinGame, hl, Prod.ext_iff] at h
    | some game =>
      cases hlock : st.ledger.lock pid gid game.stakeAmount with
      | error e2 =>
        simp [joinGame, hl, canPlayerJoinGame, checkPlayerEligibility,
          hlock, Prod.ext_iff] at h
      | ok led =>
        simp only [joinGame, hl, canPlayerJoinGame, checkPlayerEligibility,
          hlock, Prod.ext_iff] at h
        simp at h
        obtain ⟨h1, h2⟩ := h
        refine ⟨game, led, rfl, ?_, hlock, ?_⟩
        · rw [← h1]
        · rw [← h2, ← h1]

/-- C3 witness: bob has no funds, his lock fails with InsufficientFunds,
and the state — the stored participant list of g1 included — is exactly as
before the join request. -/
theorem join_lock_before_admission_witness :
    (joinGame stPoor "g1" "bob" 5).2 = stPoor :=
  join_lock_before_admission.1 stPoor "g1" "bob" 5
    (.ledger .insufficientFunds) ((joinGame stPoor "g1" "bob" 5).2)
    (by decide)

/-- C4 counterexample: after the first processed move of g1 the move log's
sequence numbers are [1] — numbering starts at 1, not at 0 as claimed. -/
theorem first_move_number_is_one :
    (lookupGame stAfterMove.games "g1").map
      (fun g => g.moves.map (fun m => m.moveNumber)) = some [1] ∧
    ¬(1 : ℕ) = 0 := by decide

/-- C4 (amended): every operation preserves the invariant that each stored
game's move-log sequence numbers are contiguous starting at 1 — processMove
assigns moveNumber = length + 1 server-side and appends; submitted moves
carry no client sequence number and no SequenceGap rejection exists
(validateMove accepts every move), so gaps, duplicates and reorderings are
impossible by construction rather than rejected. -/
theorem move_log_contiguous_from_one (st : SystemState) (op : Op)
    (hinv : storeContiguous st) : storeContiguous (applyOp st op) := by
  cases op with
  | create d now gid rid =>
    intro id g h
    simp only [applyOp] at h
    rcases createGame_games_cases st d now gid rid with hsame |
      ⟨u, hid, hstat, hmv, hpool, hlen, hgames⟩
    · rw [hsame] at h
      exact hinv id g h
    · rw [hgames, lookupGame_store] at h
      by_cases hgid : id = u.id
      · rw [if_pos hgid] at h
        injection h with h2
        intro i hi
        rw [← h2, hmv] at hi
        simp at hi
      · rw [if_neg hgid] at h
        exact hinv id g h
  | join gid pid now =>
    intro id g h
    simp only [applyOp] at h
    rcases joinGame_games_cases st gid pid now with hsame |
      ⟨game, u, hgame, hid, hstat, hmv, hpool, hpl, hgames⟩
    · rw [hsame] at h
      exact hinv id g h
    · rw [hgames, lookupGame_store] at h
      by_cases hgid : id = u.id
      · rw [if_pos hgid] at h
        injection h with h2
        rw [← h2, hmv]
        exact hinv gid game hgame
      · rw [if_neg hgid] at h
        exact hinv id g h
  | start gid now =>
    intro id g h
    simp only [applyOp] at h
    rcases startGame_games_cases st gid now with hsame |
      ⟨game, u, hgame, hc, hid, hstat, hlen, hmv, hpool, hgames⟩
    · rw [hsame] at h
      exact hinv id g h
    · rw [hgames, lookupGame_store] at h
      by_cases hgid : id = u.id
      · rw [if_pos hgid] at h
        injection h with h2
        rw [← h2, hmv]
        exact hinv gid game hgame
      · rw [if_neg hgid] at h
        exact hinv id g h
  | move gid pid md now mid =>
    intro id g h
    simp only [applyOp] at h
    rcases processMove_games_cases st gid pid md now mid with hsame |
      ⟨game, u, mv, hgame, hid, hstat, hpool, hpl, hmv, hnum, hgames⟩
    · rw [hsame] at h
      exact hinv id g h
    · rw [hgames, lookupGame_store] at h
      by_cases hgid : id = u.id
      · rw [if_pos hgid] at h
        injection h with h2
        rw [← h2, hmv]
        exact contiguousFromOne_append game.moves mv
          (hinv gid game hgame) hnum
      · rw [if_neg hgid] at h
        exact hinv id g h
  | settle gid =>
    intro id g h
    simp only [applyOp] at h
    cases hls : lookupGame st.games gid with
    | none =>
      rw [hls] at h
      exact hinv id g h
    | some gg =>
      rw [hls] at h
      simp only [distributePrizes_games] at h
      exact hinv id g h

/-- C4 witness: the invariant carried from the empty store through the
creation of g1. -/
theorem move_log_contiguous_witness :
    storeContiguous (applyOp initialState
      (.create fourCapCreation 0 "g1" "r1")) :=
  move_log_contiguous_from_one initialState
    (.create fourCapCreation 0 "g1" "r1")
    (by intro id g h; simp [initialState, lookupGame] at h)

/-- C5 counterexample: the capacity-4 match g1 leaves WAITING for
IN_PROGRESS with only 2 of its 4 configured participants. -/
theorem match_starts_below_capacity :
    fourCapCreation.maxPlayers = 4 ∧
    (lookupGame stAfterJoin.games "g1").map (fun g => g.status) =
      some .WAITING ∧
    (lookupGame stAfterStart.games "g1").map (fun g => g.status) =
      some .IN_PROGRESS ∧
    (lookupGame stAfterStart.games "g1").map (fun g => g.players.length) =
      some 2 ∧
    ¬(2 : ℤ) = 4 := by decide

/-- C5 (amended): over a keyed store, a match leaves the WAITING status
only through startGame, whose guard requires status WAITING and at least 2
participants — any count at least 2 regardless of the configured capacity,
which the match record does not even store — and the transition is directly
to IN_PROGRESS. -/
theorem waiting_exit_requires_two_players (st : SystemState) (op : Op)
    (hkeyed : keyedStore st.games) (gid : String) (g g' : Game)
    (hg : lookupGame st.games gid = some g)
    (hg' : lookupGame (applyOp st op).games gid = some g')
    (hw : g.status = .WAITING) (hnw : ¬g'.status = .WAITING) :
    g'.status = .IN_PROGRESS ∧ 2 ≤ g'.players.length := by
  cases op with
  | create d now cgid rid =>
    simp only [applyOp] at hg'
    rcases createGame_games_cases st d now cgid rid with hsame |
      ⟨u, hid, hstat, hmv, hpool, hlen, hgames⟩
    · rw [hsame, hg] at hg'
      injection hg' with h2
      rw [← h2] at hnw
      exact absurd hw hnw
    · rw [hgames, lookupGame_store] at hg'
      by_cases hgid : gid = u.id
      · rw [if_pos hgid] at hg'
        injection hg' with h2
        rw [← h2, hstat] at hnw
        exact absurd rfl hnw
      · rw [if_neg hgid, hg] at hg'
        injection hg' with h2
        rw [← h2] at hnw
        exact absurd hw hnw
  | join jgid pid now =>
    simp only [applyOp] at hg'
    rcases joinGame_games_cases st jgid pid now with hsame |
      ⟨game, u, hgame, hid, hstat, hmv, hpool, hpl, hgames⟩
    · rw [hsame, hg] at hg'
      injection hg' with h2
      rw [← h2] at hnw
      exact absurd hw hnw
    · rw [hgames, lookupGame_store] at hg'
      by_cases hgid : gid = u.id
      · rw [if_pos hgid] at hg'
        injection hg' with h2
        have hgameid : game.id = jgid := hkeyed jgid game hgame
        have hj : gid = jgid := by rw [hgid, hid, hgameid]
        rw [hj, hgame] at hg
        injection hg with h3
        rw [← h2, hstat, h3] at hnw
        exact absurd hw hnw
      · rw [if_neg hgid, hg] at hg'
        injection hg' with h2
        rw [← h2] at hnw
        exact absurd hw hnw
  | start sgid now =>
    simp only [applyOp] at hg'
    rcases startGame_games_cases st sgid now with hsame |
      ⟨game, u, hgame, hc, hid, hstat, hlen, hmv, hpool, hgames⟩
    · rw [hsame, hg] at hg'
      injection hg' with h2
      rw [← h2] at hnw
      exact absurd hw hnw
    · rw [hgames, lookupGame_store] at hg'
      by_cases hgid : gid = u.id
      · rw [if_pos hgid] at hg'
        injection hg' with h2
        subst h2
        refine ⟨hstat, ?_⟩
        have hc2 : 2 ≤ game.players.length := by
          simp [canStartGame] at hc
          exact hc.2
        rw [hlen]
        exact hc2
      · rw [if_neg hgid, hg] at hg'
        injection hg' with h2
        rw [← h2] at hnw
        exact absurd hw hnw
  | move mgid pid md now mid =>
    simp only [applyOp] at hg'
    rcases processMove_games_cases st mgid pid md now mid with hsame |
      ⟨game, u, mv, hgame, hid, hstat, hpool, hpl, hmv, hnum, hgames⟩
    · rw [hsame, hg] at hg'
      injection hg' with h2
      rw [← h2] at hnw
      exact absurd hw hnw
    · rw [hgames, lookupGame_store] at hg'
      by_cases hgid : gid = u.id
      · rw [if_pos hgid] at hg'
        injection hg' with h2
        have hgameid : game.id = mgid := hkeyed mgid game hgame
        have hj : gid = mgid := by rw [hgid, hid, hgameid]
        rw [hj, hgame] at hg
        injection hg with h3
        rw [← h2, hstat, h3] at hnw
        exact absurd hw hnw
      · rw [if_neg hgid, hg] at hg'
        injection hg' with h2
        rw [← h2] at hnw
        exact absurd hw hnw
  | settle sgid =>
    simp only [applyOp] at hg'
    cases hls : lookupGame st.games sgid with
    | none =>
      rw [hls] at hg'
      rw [hg] at hg'
      injection hg' with h2
      rw [← h2] at hnw
      exact absurd hw hnw
    | some gg =>
      rw [hls] at hg'
      simp only [distributePrizes_games] at hg'
      rw [hg] at hg'
      injection hg' with h2
      rw [← h2] at hnw
      exact absurd hw hnw

/-- C5 witness: the start of g1 from the two-participant WAITING state. -/
theorem waiting_exit_witness :
    ((lookupGame stAfterStart.games "g1").getD dummyGame).status =
      .IN_PROGRESS ∧
    2 ≤ ((lookupGame stAfterStart.games "g1").getD
      dummyGame).players.length :=
  waiting_exit_requires_two_players stAfterJoin (.start "g1" 10)
    keyed_stAfterJoin "g1"
    ((lookupGame stAfterJoin.games "g1").getD dummyGame)
    ((lookupGame stAfterStart.games "g1").getD dummyGame)
    (by decide) (by decide) (by decide) (by decide)

end CarromArena
